/-
Verification of the RaspiCamera framed streaming protocol.

Shallow embedding of the sender-side encoder buffer callbacks
(encoder_buffer_callback_android, encoder_buffer_callback_android_motion,
encoder_buffer_callback_raw_tcp, SendToAndroid, DetectMotion,
receive_commands from the C source) and of the Android receiver
(DecoderThread.run, byteArrayToInt, read_exact from the Java sources,
including TcpIpReader.read_exact).

Bytes are modelled as natural numbers below 256; byte sequences as
List Nat.  Machine integers are modelled as Nat/Int with explicit
reductions modulo 2^8 / 2^32 where the source relies on overflow.
-/
import Mathlib

namespace RaspiCamera

/-! ## MMAL buffer flags

The sender callbacks test single bits of `buffer->flags`.  The numeric
values are the MMAL library constants (frame end = 1<<2, keyframe = 1<<3,
config = 1<<5, codec side info = 1<<7); only the tested bits matter. -/

def MMAL_FLAG_FRAME_END : Nat := 4

def MMAL_FLAG_KEYFRAME : Nat := 8

def MMAL_FLAG_CONFIG : Nat := 32

def MMAL_FLAG_CODECSIDEINFO : Nat := 128

/-! ## Wire encoding of the 4-byte length field

`SendToAndroid(sock, &buffer->length, 4)` transmits the four bytes of a
`uint32_t` in the sender's native (ARM little-endian) byte order. -/

/-- The four little-endian bytes of a 32-bit unsigned value.  Each byte
depends only on the value modulo 2^32, exactly as the C `uint32_t` does. -/
def lenBytesLE (n : Nat) : List Nat :=
  [n % 256, n / 256 % 256, n / 65536 % 256, n / 16777216 % 256]

/-- Java 32-bit signed interpretation of a nonnegative bit pattern:
values at or above 2^31 wrap to negative integers. -/
def toSigned32 (n : Nat) : Int :=
  if n % 4294967296 < 2147483648 then ((n % 4294967296 : Nat) : Int)
  else ((n % 4294967296 : Nat) : Int) - 4294967296

/-- The receiver's unsigned reading of the 4-byte length field
(little-endian assembly of the byte values, no sign wrap). -/
def lenFieldUnsigned (b : List Nat) : Nat :=
  b.getD 0 0 % 256 + 256 * (b.getD 1 0 % 256) + 65536 * (b.getD 2 0 % 256)
    + 16777216 * (b.getD 3 0 % 256)

/-- DecoderThread.byteArrayToInt: assembles
`b[0]&0xFF | (b[1]&0xFF)<<8 | (b[2]&0xFF)<<16 | (b[3]&0xFF)<<24`
as a Java `int`, i.e. the little-endian value wrapped to signed 32 bits. -/
def byteArrayToInt (b : List Nat) : Int :=
  toSigned32 (lenFieldUnsigned b)

/-! ## Receiver decode loop (DecoderThread.run, android profile)

The streaming loop reads 4 bytes, interprets them with `byteArrayToInt`,
returns (faults) if `iFrameLen > TCPIP_BUFFER_SIZE` (2000000), and
otherwise calls `read_exact(buffer, iFrameLen)`, whose `while(iToRead>0)`
loop reads nothing when the count is not positive and otherwise blocks
until exactly that many bytes arrived (or the stream ends). -/

def TCPIP_BUFFER_SIZE : Nat := 2000000

/-- Result of one pass of the receiver's frame-decoding loop. -/
inductive DecodeResult where
  | ok (payload rest : List Nat)
  | oversize (len : Int)
  | closed
deriving DecidableEq

/-- One iteration of the DecoderThread.run streaming loop on the byte
stream: read the 4-byte length, guard `iFrameLen > TCPIP_BUFFER_SIZE`,
then read exactly `iFrameLen` payload bytes. -/
def decodeFrame (stream : List Nat) : DecodeResult :=
  if stream.length < 4 then .closed
  else
    let len := byteArrayToInt (stream.take 4)
    let rest := stream.drop 4
    if len > (TCPIP_BUFFER_SIZE : Int) then .oversize len
    else
      let cnt := len.toNat
      if rest.length < cnt then .closed
      else .ok (rest.take cnt) (rest.drop cnt)

/-! ## Sender callback: encoder_buffer_callback_android

State is the global `p_buf_partial_begin` pointer: zero or one pending
first chunk of a frame.  The callback either produces wire bytes or
terminates the process (`exit(12)` on a duplicated begin-of-frame). -/

/-- Outcome of one sender callback invocation: the new pending-chunk
state plus the bytes put on the wire, or process termination. -/
inductive SendResult where
  | ok (pending : Option (List Nat)) (wire : List Nat)
  | exitProg (code : Nat)
deriving DecidableEq

/-- encoder_buffer_callback_android: config buffers are sent at once as
length+payload; codec-side-info buffers are ignored; a buffer with no
flags set is held as the begin of a partial frame (exit(12) if one is
already held); a FRAME_END buffer is sent merged with the held chunk
(length field = uint32 sum of the two lengths) or alone.  Buffers of
length zero are ignored. -/
def encoderBufferCallbackAndroid (pending : Option (List Nat))
    (flags : Nat) (data : List Nat) : SendResult :=
  if data.length = 0 then .ok pending []
  else if flags &&& MMAL_FLAG_CONFIG ≠ 0 then
    .ok pending (lenBytesLE data.length ++ data)
  else if flags &&& MMAL_FLAG_CODECSIDEINFO ≠ 0 then
    .ok pending []
  else if flags = 0 then
    match pending with
    | some _ => .exitProg 12
    | none => .ok (some data) []
  else if flags &&& MMAL_FLAG_FRAME_END ≠ 0 then
    match pending with
    | some a =>
        .ok none (lenBytesLE (a.length + data.length) ++ (a ++ data))
    | none => .ok pending (lenBytesLE data.length ++ data)
  else .ok pending []

/-! ## Motion vector side information (DetectMotion)

`INLINE_MOTION_VECTOR` is a packed struct of `signed char x_vector`,
`signed char y_vector`, `short sad`; a codec-side-info buffer is the raw
byte image of an array of such structs (little-endian). -/

/-- A per-macroblock motion vector triple. -/
structure IMV where
  x_vector : Int
  y_vector : Int
  sad : Int
deriving DecidableEq

/-- Reinterpret one byte as a C `signed char`. -/
def toInt8 (b : Nat) : Int :=
  if b % 256 < 128 then ((b % 256 : Nat) : Int) else ((b % 256 : Nat) : Int) - 256

/-- Reinterpret two little-endian bytes as a C `short`. -/
def toInt16 (lo hi : Nat) : Int :=
  if lo % 256 + 256 * (hi % 256) < 32768 then
    ((lo % 256 + 256 * (hi % 256) : Nat) : Int)
  else ((lo % 256 + 256 * (hi % 256) : Nat) : Int) - 65536

/-- The cast `(INLINE_MOTION_VECTOR*) &buffer->data[0]`: the buffer bytes
viewed as an array of 4-byte motion-vector structs. -/
def bytesToIMV : List Nat → List IMV
  | b0 :: b1 :: b2 :: b3 :: rest =>
      ⟨toInt8 b0, toInt8 b1, toInt16 b2 b3⟩ :: bytesToIMV rest
  | _ => []

/-- The cell index DetectMotion reads for column x of row j:
`imv[x + (pstate->mbx+1)*j]`. -/
def detectMotionIndex (mbx x j : Nat) : Nat := x + (mbx + 1) * j

/-- Magnitude of one cell: `(unsigned char)sqrt(vx*vx+vy*vy)` where
`vx = -cell.x_vector` and `vy = cell.y_vector` (signed chars).  Squaring
makes the negation irrelevant; the squares are formed in `int`, their sum
is at most 2*128^2 = 32768, whose IEEE-double square root truncates to the
integer square root (both below 182, so the byte cast does not wrap). -/
def cellMag (c : IMV) : Nat :=
  Nat.sqrt (c.x_vector * c.x_vector + c.y_vector * c.y_vector).toNat

/-- DetectMotion: running byte maximum of the cell magnitudes over the
scan `for j < mby, for x < mbx` of cells `imv[x + (mbx+1)*j]`
(out-of-range reads modelled as the zero cell). -/
def DetectMotion (imv : List IMV) (mbx mby : Nat) : Nat :=
  (List.range mby).foldl
    (fun acc j =>
      (List.range mbx).foldl
        (fun acc2 x => max acc2 (cellMag (imv.getD (detectMotionIndex mbx x j) ⟨0, 0, 0⟩)))
        acc)
    0

/-- Running maximum of `f` over `0, …, n-1` starting from `a` (the shape
of one `for` loop of DetectMotion). -/
def foldMax (f : Nat → Nat) (n a : Nat) : Nat :=
  (List.range n).foldl (fun acc x => max acc (f x)) a

/-- Macroblock count along one image dimension
(`state.mbx=state.width/16; if(state.width%16!=0)state.mbx++;`). -/
def mbOf (dim : Nat) : Nat := dim / 16 + (if dim % 16 = 0 then 0 else 1)

/-- The cell count the spec assigns to a MotionVectors frame:
`mbx * (mby+1)`. -/
def specCellCount (mbx mby : Nat) : Nat := mbx * (mby + 1)

/-- The cell count the scan actually stays within: row stride `mbx+1`
over `mby` rows. -/
def strideCellCount (mbx mby : Nat) : Nat := (mbx + 1) * mby

/-! ## ANDROID_DATA_TYPES wire tags -/

def CurrentResolution : Nat := 0

def RegularFrame : Nat := 1

def MotionInFrame : Nat := 2

def MotionAlarm : Nat := 3

/-! ## Sender callback: encoder_buffer_callback_android_motion -/

/-- Mutable sender state read by encoder_buffer_callback_android_motion:
the global `p_buf_partial_begin` and the static `b1_config_sent` counter. -/
structure MotionState where
  pBegin : Option (List Nat)
  b1ConfigSent : Nat
deriving DecidableEq

/-- Outcome of one android_motion callback invocation. -/
inductive MotionSendResult where
  | ok (st : MotionState) (wire : List Nat)
  | exitProg (code : Nat)
deriving DecidableEq

/-- encoder_buffer_callback_android_motion: config buffers are sent as
length+payload only while `b1_config_sent < 2`; a codec-side-info buffer
produces the MotionInFrame tag, the 1-byte DetectMotion score, and a
MotionAlarm tag exactly when `gMotionAlarm != 0 && (int)mot > gMotionAlarm`;
H264 buffers follow the same pending-chunk discipline as the plain android
callback but with a RegularFrame tag before the length. -/
def encoderBufferCallbackAndroidMotion (st : MotionState) (gMotionAlarm : Int)
    (mbx mby : Nat) (flags : Nat) (data : List Nat) : MotionSendResult :=
  if data.length = 0 then .ok st []
  else if st.b1ConfigSent < 2 ∧ flags &&& MMAL_FLAG_CONFIG ≠ 0 then
    .ok { st with b1ConfigSent := st.b1ConfigSent + 1 } (lenBytesLE data.length ++ data)
  else if flags &&& MMAL_FLAG_CODECSIDEINFO ≠ 0 then
    let mot := DetectMotion (bytesToIMV data) mbx mby
    .ok st ([MotionInFrame, mot]
      ++ (if gMotionAlarm ≠ 0 ∧ (mot : Int) > gMotionAlarm then [MotionAlarm] else []))
  else if flags = 0 then
    match st.pBegin with
    | some _ => .exitProg 12
    | none => .ok { st with pBegin := some data } []
  else if flags &&& MMAL_FLAG_FRAME_END ≠ 0 then
    match st.pBegin with
    | some a =>
        .ok { st with pBegin := none }
          ([RegularFrame] ++ lenBytesLE (a.length + data.length) ++ (a ++ data))
    | none => .ok st ([RegularFrame] ++ lenBytesLE data.length ++ data)
  else .ok st []

/-! ## Sender callback: encoder_buffer_callback_raw_tcp -/

/-- Outcome of one raw_tcp callback invocation (`r` is what the single
`send` call reported). -/
inductive RawSendResult where
  | ok (wire : List Nat)
  | exitProg
deriving DecidableEq

/-- encoder_buffer_callback_raw_tcp: codec-side-info buffers are ignored;
any other nonempty buffer is pushed to the socket verbatim by one
`send(sockFD, buffer->data, buffer->length, MSG_NOSIGNAL)` call — no kind
tag and no length field; a send result different from the buffer length
is `exit(__LINE__)`. -/
def encoderBufferCallbackRawTcp (flags : Nat) (data : List Nat) (r : Int) :
    RawSendResult :=
  if data.length = 0 then .ok []
  else if flags &&& MMAL_FLAG_CODECSIDEINFO ≠ 0 then .ok []
  else if r = (data.length : Int) then .ok data
  else .exitProg

/-! ## SendToAndroid -/

/-- Outcome of SendToAndroid. -/
inductive SendOutcome where
  | sent
  | exited
deriving DecidableEq

/-- SendToAndroid: one `send` call; `if(len != send(...)) exit(__LINE__)`.
`r` is the byte count (or -1) the transport reported for that single call;
there is no retry loop for a short send. -/
def sendToAndroid (len : Nat) (r : Int) : SendOutcome :=
  if r = (len : Int) then .sent else .exited

/-! ## Receiver byte-stream read loops

`sched` models how the transport splits the stream: entry k is how many
bytes the k-th `InputStream.read` call would deliver at most (the actual
delivery is also capped by the request and by the data left; an exhausted
schedule means the transport delivers as much as requested).  `data` is
the remaining stream content; the functions are fueled because the Java
loops have no a-priori bound. -/

/-- DecoderThread.read_exact (VideoFragment variant): loops while
`iToRead > 0`; a read result below 1 (end of stream or zero delivery)
raises the caught exception and yields false; otherwise the delivered
bytes are appended at `offset` (modelled by the accumulator). -/
def decoderReadLoop (fuel : Nat) (sched : List Nat) (iToRead : Nat)
    (data acc : List Nat) : Option (Bool × List Nat) :=
  if iToRead = 0 then some (true, acc)
  else match fuel with
  | 0 => none
  | f + 1 =>
    if data.length = 0 then some (false, acc)
    else
      let r := min (min (sched.headD iToRead) iToRead) data.length
      if r = 0 then some (false, acc)
      else decoderReadLoop f sched.tail (iToRead - r) (data.drop r) (acc ++ data.take r)

/-- Java-level outcome of TcpIpReader.read_exact. -/
inductive JavaReadOutcome where
  | retTrue
  | retFalse
  | crash
deriving DecidableEq

/-- TcpIpReader.read_exact: loops while `iToRead > 0` with NO guard on the
read result.  At end of stream `InputStream.read` returns -1, so the code
does `iToRead -= -1; offset += -1`; the next iteration calls
`read(buffer, offset, iToRead)` with a negative offset, which raises
IndexOutOfBoundsException — an unchecked exception the `catch (IOException)`
clause does not catch (modelled as `crash`). -/
def tcpReadLoop (fuel : Nat) (sched : List Nat) (iToRead offset : Int)
    (data : List Nat) : Option JavaReadOutcome :=
  if iToRead ≤ 0 then some .retTrue
  else match fuel with
  | 0 => none
  | f + 1 =>
    if offset < 0 then some .crash
    else if data.length = 0 then
      tcpReadLoop f sched.tail (iToRead + 1) (offset - 1) data
    else
      let r : Nat := min (min (sched.headD iToRead.toNat) iToRead.toNat) data.length
      tcpReadLoop f sched.tail (iToRead - r) (offset + r) (data.drop r)

/-! ## Control channel: receive_commands -/

/-- Calls receive_commands dispatches to the camera collaborator. -/
inductive CamCall where
  | setISO (n : Int)
  | setShutterSpeed (n : Int)
  | annotateText (s : List Char)
  | switchMotionVectors (n : Int)
  | zoomMove (c : Char)
deriving DecidableEq

/-- Globals the command loop reads and writes:
`pState->callback_data.runTimeShowStat` and `gMotionAlarm`. -/
structure CmdState where
  runTimeShowStat : Int
  gMotionAlarm : Int
deriving DecidableEq

/-- `strncmp(key, line, strlen(key)) == 0`. -/
def strncmpEq : List Char → List Char → Bool
  | [], _ => true
  | _ :: _, [] => false
  | c :: p, d :: s => if c = d then strncmpEq p s else false

def isoKey : List Char := "iso=".toList

def ssKey : List Char := "ss=".toList

def statKey : List Char := "stat=".toList

def motionKey : List Char := "motion=".toList

def moveKey : List Char := "move=".toList

def motAlarmKey : List Char := "mot_alarm=".toList

/-- C `isdigit` on the characters `%d` consumes. -/
def isDigitC (c : Char) : Bool := 48 ≤ c.toNat && c.toNat ≤ 57

/-- Whitespace `%d` skips. -/
def isWS (c : Char) : Bool :=
  c.toNat = 32 || c.toNat = 9 || c.toNat = 10 || c.toNat = 13 || c.toNat = 11 || c.toNat = 12

/-- Value of a nonempty digit string. -/
def digitsVal (ds : List Char) : Nat :=
  ds.foldl (fun acc c => 10 * acc + (c.toNat - 48)) 0

/-- The `%d` conversion of `sscanf`: skip whitespace, optional sign, at
least one digit; `none` when the conversion fails (sscanf returns 0 and
stores nothing). -/
def scanfInt (s : List Char) : Option Int :=
  let s1 := s.dropWhile isWS
  if s1.length = 0 then none
  else if s1.headD (Char.ofNat 0) = '-' then
    let ds := s1.tail.takeWhile isDigitC
    if ds = [] then none else some (-(digitsVal ds : Int))
  else if s1.headD (Char.ofNat 0) = '+' then
    let ds := s1.tail.takeWhile isDigitC
    if ds = [] then none else some ((digitsVal ds : Int))
  else
    let ds := s1.takeWhile isDigitC
    if ds = [] then none else some ((digitsVal ds : Int))

/-- One iteration of the receive_commands getline loop: the strncmp
prefix dispatch chain over one line, producing the camera-collaborator
calls made and the updated globals.  A line matching no key is a no-op. -/
def processLine (st : CmdState) (line : List Char) : List CamCall × CmdState :=
  if strncmpEq isoKey line then
    match scanfInt (line.drop 4) with
    | some n => ([.setISO n], st)
    | none => ([], st)
  else if strncmpEq ssKey line then
    match scanfInt (line.drop 3) with
    | some n => ([.setShutterSpeed n], st)
    | none => ([], st)
  else if strncmpEq statKey line then
    let newStat := (scanfInt (line.drop 5)).getD st.runTimeShowStat
    if newStat = 0 then ([.annotateText []], { st with runTimeShowStat := newStat })
    else ([], { st with runTimeShowStat := newStat })
  else if strncmpEq motionKey line then
    if st.gMotionAlarm = 0 then
      match scanfInt (line.drop 7) with
      | some n => ([.switchMotionVectors n], st)
      | none => ([], st)
    else ([], st)
  else if strncmpEq moveKey line then
    ([.zoomMove (line.getD 5 (Char.ofNat 0))], st)
  else if strncmpEq motAlarmKey line then
    match scanfInt (line.drop 10) with
    | some n =>
        ([.switchMotionVectors (if n = 0 then 0 else 1)], { st with gMotionAlarm := n })
    | none => ([], st)
  else ([], st)

/-- The whole receive_commands loop over the lines getline yields:
each line is processed in turn, threading the globals. -/
def receiveCommands (st : CmdState) : List (List Char) → List CamCall
  | [] => []
  | l :: rest => (processLine st l).1 ++ receiveCommands (processLine st l).2 rest

end RaspiCamera

namespace RaspiCamera

/-! ## Helper lemmas -/

theorem lenBytesLE_length (n : Nat) : (lenBytesLE n).length = 4 := rfl

theorem lenFieldUnsigned_lenBytesLE (n : Nat) :
    lenFieldUnsigned (lenBytesLE n) = n % 4294967296 := by
  show n % 256 % 256 + 256 * (n / 256 % 256 % 256) + 65536 * (n / 65536 % 256 % 256)
      + 16777216 * (n / 16777216 % 256 % 256) = n % 4294967296
  omega

theorem byteArrayToInt_lenBytesLE (n : Nat) (h : n < 2147483648) :
    byteArrayToInt (lenBytesLE n) = (n : Int) := by
  rw [byteArrayToInt, lenFieldUnsigned_lenBytesLE, toSigned32]
  have h1 : n % 4294967296 = n := Nat.mod_eq_of_lt (by omega)
  rw [h1]
  simp [h1, h]

/-! ## Branch lemmas for encoder_buffer_callback_android -/

theorem cba_end_nonePending (flags : Nat) (data : List Nat)
    (hd : data.length ≠ 0)
    (hc : flags &&& MMAL_FLAG_CONFIG = 0)
    (hs : flags &&& MMAL_FLAG_CODECSIDEINFO = 0)
    (he : flags &&& MMAL_FLAG_FRAME_END ≠ 0) :
    encoderBufferCallbackAndroid none flags data
      = .ok none (lenBytesLE data.length ++ data) := by
  have h0 : flags ≠ 0 := by
    intro h
    subst h
    exact he (by decide)
  unfold encoderBufferCallbackAndroid
  rw [if_neg hd,
    if_neg (show ¬(flags &&& MMAL_FLAG_CONFIG ≠ 0) from by simp [hc]),
    if_neg (show ¬(flags &&& MMAL_FLAG_CODECSIDEINFO ≠ 0) from by simp [hs]),
    if_neg h0, if_pos he]

theorem cba_end_somePending (flags : Nat) (a data : List Nat)
    (hd : data.length ≠ 0)
    (hc : flags &&& MMAL_FLAG_CONFIG = 0)
    (hs : flags &&& MMAL_FLAG_CODECSIDEINFO = 0)
    (he : flags &&& MMAL_FLAG_FRAME_END ≠ 0) :
    encoderBufferCallbackAndroid (some a) flags data
      = .ok none (lenBytesLE (a.length + data.length) ++ (a ++ data)) := by
  have h0 : flags ≠ 0 := by
    intro h
    subst h
    exact he (by decide)
  unfold encoderBufferCallbackAndroid
  rw [if_neg hd,
    if_neg (show ¬(flags &&& MMAL_FLAG_CONFIG ≠ 0) from by simp [hc]),
    if_neg (show ¬(flags &&& MMAL_FLAG_CODECSIDEINFO ≠ 0) from by simp [hs]),
    if_neg h0, if_pos he]

theorem cba_begin_nonePending (data : List Nat) (hd : data.length ≠ 0) :
    encoderBufferCallbackAndroid none 0 data = .ok (some data) [] := by
  unfold encoderBufferCallbackAndroid
  rw [if_neg hd,
    if_neg (show ¬((0 : Nat) &&& MMAL_FLAG_CONFIG ≠ 0) from by decide),
    if_neg (show ¬((0 : Nat) &&& MMAL_FLAG_CODECSIDEINFO ≠ 0) from by decide),
    if_pos rfl]

theorem cba_begin_somePending (p data : List Nat) (hd : data.length ≠ 0) :
    encoderBufferCallbackAndroid (some p) 0 data = .exitProg 12 := by
  unfold encoderBufferCallbackAndroid
  rw [if_neg hd,
    if_neg (show ¬((0 : Nat) &&& MMAL_FLAG_CONFIG ≠ 0) from by decide),
    if_neg (show ¬((0 : Nat) &&& MMAL_FLAG_CODECSIDEINFO ≠ 0) from by decide),
    if_pos rfl]

/-- Decoding a well-formed on-the-wire frame whose length is within the
receiver's buffer recovers the payload exactly. -/
theorem decodeFrame_wire (p rest : List Nat) (h2 : p.length ≤ TCPIP_BUFFER_SIZE) :
    decodeFrame ((lenBytesLE p.length ++ p) ++ rest) = .ok p rest := by
  rw [decodeFrame]
  have hlen4 : (lenBytesLE p.length).length = 4 := rfl
  have hstream : ((lenBytesLE p.length ++ p) ++ rest).length
      = 4 + (p.length + rest.length) := by
    simp [hlen4]
    try omega
  have htake : ((lenBytesLE p.length ++ p) ++ rest).take 4
      = lenBytesLE p.length := by
    rw [List.append_assoc, ← hlen4, List.take_left]
  have hdrop : ((lenBytesLE p.length ++ p) ++ rest).drop 4 = p ++ rest := by
    rw [List.append_assoc, ← hlen4, List.drop_left]
  have hmax : TCPIP_BUFFER_SIZE = 2000000 := rfl
  have hint : byteArrayToInt (((lenBytesLE p.length ++ p) ++ rest).take 4)
      = (p.length : Int) := by
    rw [htake, byteArrayToInt_lenBytesLE]
    omega
  simp only [hstream, hint, hdrop]
  have hng : ¬ (4 + (p.length + rest.length) < 4) := by omega
  have hg : ¬ ((p.length : Int) > (TCPIP_BUFFER_SIZE : Int)) := by
    simp only [gt_iff_lt, not_lt]
    exact_mod_cast h2
  have htn : (p.length : Int).toNat = p.length := Int.toNat_natCast _
  simp only [if_neg hng, if_neg hg, htn]
  have hpr : ¬ ((p ++ rest).length < p.length) := by
    simp
  rw [if_neg hpr, List.take_left, List.drop_left]

/-! ## C1: android-profile round trip -/

/-- C1: for every payload of length 0 < L ≤ 2000000 (the android
receiver's TCPIP_BUFFER_SIZE), the sender's complete-frame encoding
(4-byte length then payload, produced by encoder_buffer_callback_android
on a FRAME_END buffer with nothing pending) is decoded by the receiver's
loop (read 4 bytes, byteArrayToInt, oversize guard, read exactly L bytes)
back to exactly the original payload, leaving the rest of the stream. -/
theorem c1_android_roundtrip (p rest : List Nat)
    (h1 : 0 < p.length) (h2 : p.length ≤ TCPIP_BUFFER_SIZE) :
    encoderBufferCallbackAndroid none MMAL_FLAG_FRAME_END p
      = .ok none (lenBytesLE p.length ++ p) ∧
    decodeFrame ((lenBytesLE p.length ++ p) ++ rest) = .ok p rest := by
  refine ⟨?_, decodeFrame_wire p rest h2⟩
  exact cba_end_nonePending MMAL_FLAG_FRAME_END p (by omega)
    (by decide) (by decide) (by decide)

/-- Witness for C1 at payload [7] with empty remaining stream. -/
theorem c1_android_roundtrip_witness :
    0 < ([7] : List Nat).length ∧ ([7] : List Nat).length ≤ TCPIP_BUFFER_SIZE ∧
    (encoderBufferCallbackAndroid none MMAL_FLAG_FRAME_END [7]
      = .ok none (lenBytesLE 1 ++ [7]) ∧
     decodeFrame ((lenBytesLE 1 ++ [7]) ++ []) = .ok [7] []) :=
  ⟨by decide, by decide, c1_android_roundtrip [7] [] (by decide) (by decide)⟩

/-! ## C2: reassembly of a split frame -/

/-- C2: feeding encoder_buffer_callback_android a no-flags buffer A (with
nothing pending) and then a FRAME_END buffer B puts nothing on the wire
for A, and for B exactly one frame whose 4-byte length field carries
|A|+|B| and whose payload is A ++ B in order; the pending slot is cleared
again afterwards. -/
theorem c2_android_reassembly (A B : List Nat) (flags2 : Nat)
    (hA : A.length ≠ 0) (hB : B.length ≠ 0)
    (hc : flags2 &&& MMAL_FLAG_CONFIG = 0)
    (hs : flags2 &&& MMAL_FLAG_CODECSIDEINFO = 0)
    (he : flags2 &&& MMAL_FLAG_FRAME_END ≠ 0) :
    encoderBufferCallbackAndroid none 0 A = .ok (some A) [] ∧
    encoderBufferCallbackAndroid (some A) flags2 B
      = .ok none (lenBytesLE (A.length + B.length) ++ (A ++ B)) :=
  ⟨cba_begin_nonePending A hA, cba_end_somePending flags2 A B hB hc hs he⟩

/-- Witness for C2 at A = [10], B = [20, 30], FRAME_END flags. -/
theorem c2_android_reassembly_witness :
    ([10] : List Nat).length ≠ 0 ∧ ([20, 30] : List Nat).length ≠ 0 ∧
    MMAL_FLAG_FRAME_END &&& MMAL_FLAG_CONFIG = 0 ∧
    MMAL_FLAG_FRAME_END &&& MMAL_FLAG_CODECSIDEINFO = 0 ∧
    MMAL_FLAG_FRAME_END &&& MMAL_FLAG_FRAME_END ≠ 0 ∧
    (encoderBufferCallbackAndroid none 0 [10] = .ok (some [10]) [] ∧
     encoderBufferCallbackAndroid (some [10]) MMAL_FLAG_FRAME_END [20, 30]
       = .ok none (lenBytesLE 3 ++ [10, 20, 30])) :=
  ⟨by decide, by decide, by decide, by decide, by decide,
   c2_android_reassembly [10] [20, 30] MMAL_FLAG_FRAME_END
     (by decide) (by decide) (by decide) (by decide) (by decide)⟩

/-! ## C3: double begin-of-frame is a fatal protocol fault -/

theorem cbam_begin_somePending (st : MotionState) (gAlarm : Int)
    (mbx mby : Nat) (q data : List Nat)
    (hd : data.length ≠ 0) (hq : st.pBegin = some q) :
    encoderBufferCallbackAndroidMotion st gAlarm mbx mby 0 data
      = .exitProg 12 := by
  unfold encoderBufferCallbackAndroidMotion
  rw [if_neg hd,
    if_neg (show ¬(st.b1ConfigSent < 2 ∧ (0 : Nat) &&& MMAL_FLAG_CONFIG ≠ 0) from
      fun h => h.2 (by decide)),
    if_neg (show ¬((0 : Nat) &&& MMAL_FLAG_CODECSIDEINFO ≠ 0) from by decide),
    if_pos rfl, hq]

/-- C3: in both android callbacks, a nonempty no-flags buffer arriving
while a begin-of-frame chunk is already pending terminates the process
with exit(12) — nothing is silently dropped onto the wire, and the
Option-typed pending slot keeps at most one accumulation outstanding. -/
theorem c3_double_begin_fatal (p data : List Nat) (st : MotionState)
    (gAlarm : Int) (mbx mby : Nat) (q : List Nat)
    (hd : data.length ≠ 0) (hq : st.pBegin = some q) :
    encoderBufferCallbackAndroid (some p) 0 data = .exitProg 12 ∧
    encoderBufferCallbackAndroidMotion st gAlarm mbx mby 0 data
      = .exitProg 12 :=
  ⟨cba_begin_somePending p data hd,
   cbam_begin_somePending st gAlarm mbx mby q data hd hq⟩

/-- Witness for C3 with a pending chunk [1] and a second begin buffer [2]. -/
theorem c3_double_begin_fatal_witness :
    ([2] : List Nat).length ≠ 0 ∧
    (MotionState.mk (some [1]) 2).pBegin = some [1] ∧
    (encoderBufferCallbackAndroid (some [1]) 0 [2] = .exitProg 12 ∧
     encoderBufferCallbackAndroidMotion ⟨some [1], 2⟩ 0 1 1 0 [2]
       = .exitProg 12) :=
  ⟨by decide, by decide,
   c3_double_begin_fatal [1] [2] ⟨some [1], 2⟩ 0 1 1 [1] (by decide) (by decide)⟩

/-! ## C5: sendAll / recvExact partial-I/O behaviour -/

theorem decoderReadLoop_succ_eq (f : Nat) (sched : List Nat) (cnt : Nat)
    (data acc : List Nat) :
    decoderReadLoop (f + 1) sched cnt data acc
      = if cnt = 0 then some (true, acc)
        else if data.length = 0 then some (false, acc)
        else
          let r := min (min (sched.headD cnt) cnt) data.length
          if r = 0 then some (false, acc)
          else decoderReadLoop f sched.tail (cnt - r) (data.drop r)
            (acc ++ data.take r) := rfl

theorem decoderReadLoop_zero_eq (sched : List Nat) (cnt : Nat)
    (data acc : List Nat) :
    decoderReadLoop 0 sched cnt data acc
      = if cnt = 0 then some (true, acc) else none := rfl

/-- DecoderThread.read_exact delivers exactly the requested bytes no
matter how the transport splits them, provided every read delivers at
least one byte and the stream holds enough data. -/
theorem decoderReadLoop_delivers (fuel : Nat) :
    ∀ (sched : List Nat) (cnt : Nat) (data acc : List Nat),
    (∀ s ∈ sched, 1 ≤ s) → cnt ≤ data.length → cnt ≤ fuel →
    decoderReadLoop fuel sched cnt data acc = some (true, acc ++ data.take cnt) := by
  induction fuel with
  | zero =>
    intro sched cnt data acc _ _ hf
    have h0 : cnt = 0 := by omega
    subst h0
    simp [decoderReadLoop_zero_eq]
  | succ f ih =>
    intro sched cnt data acc hs hd hf
    by_cases h0 : cnt = 0
    · subst h0
      simp [decoderReadLoop_succ_eq]
    · rw [decoderReadLoop_succ_eq, if_neg h0]
      have hdlen : ¬ (data.length = 0) := by omega
      rw [if_neg hdlen]
      have hr1 : 1 ≤ min (min (sched.headD cnt) cnt) data.length := by
        rcases sched with _ | ⟨s, sched⟩
        · simp [List.headD]
          omega
        · have := hs s (by simp)
          simp [List.headD]
          omega
      rw [if_neg (by omega)]
      set r := min (min (sched.headD cnt) cnt) data.length with hrdef
      have hrc : r ≤ cnt := by omega
      have hrd : r ≤ data.length := by omega
      rw [ih sched.tail (cnt - r) (data.drop r) (acc ++ data.take r)
        (fun s hmem => hs s (List.mem_of_mem_tail hmem))
        (by simp; omega) (by omega)]
      have : data.take r ++ (data.drop r).take (cnt - r) = data.take cnt := by
        rw [← List.take_add]
        congr 1
        omega
      rw [List.append_assoc, this]

/-- C5 (amended): DecoderThread.read_exact loops until all requested
bytes have been read, so a transfer split into short reads still moves
exactly the requested bytes; a read at end-of-stream (result below 1) is
treated as connection-closed and yields false; SendToAndroid performs a
single send and any result other than the full requested length is
fatal (exit), the full-length result being the only non-fatal one. -/
theorem c5_single_send_loop_recv (fuel f : Nat) (sched : List Nat)
    (cnt : Nat) (data acc acc2 : List Nat) (len : Nat) (r : Int)
    (hs : ∀ s ∈ sched, 1 ≤ s) (hd : cnt ≤ data.length) (hf : cnt ≤ fuel)
    (h0 : cnt ≠ 0) (hr : r ≠ (len : Int)) :
    decoderReadLoop fuel sched cnt data acc = some (true, acc ++ data.take cnt) ∧
    decoderReadLoop (f + 1) sched cnt [] acc2 = some (false, acc2) ∧
    sendToAndroid len ((len : Nat) : Int) = .sent ∧
    sendToAndroid len r = .exited := by
  refine ⟨decoderReadLoop_delivers fuel sched cnt data acc hs hd hf, ?_, ?_, ?_⟩
  · rw [decoderReadLoop_succ_eq, if_neg h0]
    simp
  · simp [sendToAndroid]
  · simp [sendToAndroid, hr]

/-- C5 counterexample to the claim as stated: SendToAndroid, facing a
transport that accepts only 2 of 4 requested bytes in its single send
call, exits the process instead of looping to transfer the rest. -/
theorem c5_send_short_counterexample :
    sendToAndroid 4 2 = .exited ∧ SendOutcome.exited ≠ SendOutcome.sent := by
  decide

/-- Witness for C5 at cnt 4 delivered as 1+2+1-byte reads. -/
theorem c5_single_send_loop_recv_witness :
    (∀ s ∈ ([1, 2, 1] : List Nat), 1 ≤ s) ∧
    (decoderReadLoop 4 [1, 2, 1] 4 [5, 6, 7, 8, 9] []
        = some (true, [] ++ [5, 6, 7, 8, 9].take 4) ∧
     decoderReadLoop (0 + 1) [1, 2, 1] 4 [] [] = some (false, []) ∧
     sendToAndroid 4 ((4 : Nat) : Int) = .sent ∧
     sendToAndroid 4 (-1) = .exited) :=
  ⟨by decide,
   c5_single_send_loop_recv 4 0 [1, 2, 1] 4 [5, 6, 7, 8, 9] [] [] 4 (-1)
     (by decide) (by decide) (by decide) (by decide) (by decide)⟩

/-! ## C6: raw_tcp wire format -/

/-- C6 counterexample to the claim as stated: in raw_tcp mode a complete
frame [1,2,3] goes on the wire as exactly the 3 payload bytes — not as a
4-byte length followed by the payload. -/
theorem c6_raw_tcp_counterexample :
    encoderBufferCallbackRawTcp MMAL_FLAG_FRAME_END [1, 2, 3] 3
      = .ok [1, 2, 3] ∧
    ([1, 2, 3] : List Nat) ≠ lenBytesLE 3 ++ [1, 2, 3] := by
  decide

/-- C6 (amended): raw_tcp mode omits the kind-tag AND the length prefix:
every non-side-info nonempty buffer is sent as its raw payload bytes
only, one buffer after another. -/
theorem c6_raw_tcp_payload_only (flags : Nat) (data : List Nat) (r : Int)
    (hs : flags &&& MMAL_FLAG_CODECSIDEINFO = 0)
    (hd : data.length ≠ 0) (hr : r = (data.length : Int)) :
    encoderBufferCallbackRawTcp flags data r = .ok data := by
  unfold encoderBufferCallbackRawTcp
  rw [if_neg hd,
    if_neg (show ¬(flags &&& MMAL_FLAG_CODECSIDEINFO ≠ 0) from by simp [hs]),
    if_pos hr]

/-- Witness for C6 at a FRAME_END buffer [9, 9]. -/
theorem c6_raw_tcp_payload_only_witness :
    MMAL_FLAG_FRAME_END &&& MMAL_FLAG_CODECSIDEINFO = 0 ∧
    ([9, 9] : List Nat).length ≠ 0 ∧
    (2 : Int) = (([9, 9] : List Nat).length : Int) ∧
    encoderBufferCallbackRawTcp MMAL_FLAG_FRAME_END [9, 9] 2 = .ok [9, 9] :=
  ⟨by decide, by decide, by decide,
   c6_raw_tcp_payload_only MMAL_FLAG_FRAME_END [9, 9] 2
     (by decide) (by decide) (by decide)⟩

/-! ## C4: oversize length handling -/

theorem decodeFrame_eq (stream : List Nat) :
    decodeFrame stream
      = if stream.length < 4 then .closed
        else if byteArrayToInt (stream.take 4) > (TCPIP_BUFFER_SIZE : Int) then
          .oversize (byteArrayToInt (stream.take 4))
        else if (stream.drop 4).length < (byteArrayToInt (stream.take 4)).toNat then
          .closed
        else
          .ok ((stream.drop 4).take (byteArrayToInt (stream.take 4)).toNat)
            ((stream.drop 4).drop (byteArrayToInt (stream.take 4)).toNat) := rfl

/-- C4 counterexample to the claim as stated: the 4-byte field
[0,0,0,128] denotes the unsigned length 2^31 = 2147483648 > 2000000, yet
byteArrayToInt yields the negative Java int -2^31, the oversize guard
`iFrameLen > TCPIP_BUFFER_SIZE` passes, and decode proceeds without a
fault (the payload read loop then reads zero bytes). -/
theorem c4_unsigned_counterexample :
    lenFieldUnsigned [0, 0, 0, 128] = 2147483648 ∧
    2147483648 > TCPIP_BUFFER_SIZE ∧
    byteArrayToInt [0, 0, 0, 128] = -2147483648 ∧
    decodeFrame [0, 0, 0, 128] = .ok [] [] := by
  refine ⟨by decide, by decide, by decide, ?_⟩
  rw [decodeFrame_eq]
  norm_num
  decide

/-- C4 (amended): whenever the signed 32-bit reading of the length field
exceeds 2000000 the decode loop faults (returns) before reading any
payload byte; and on every stream whatsoever, a successfully decoded
payload never exceeds 2000000 bytes — fields at or above 2^31 slip past
the guard as negative values, but their payload read is then empty. -/
theorem c4_oversize_guard (stream stream2 p rest : List Nat)
    (h4 : ¬ stream.length < 4)
    (hbig : byteArrayToInt (stream.take 4) > (TCPIP_BUFFER_SIZE : Int))
    (hok : decodeFrame stream2 = .ok p rest) :
    decodeFrame stream = .oversize (byteArrayToInt (stream.take 4)) ∧
    p.length ≤ TCPIP_BUFFER_SIZE := by
  constructor
  · rw [decodeFrame_eq, if_neg h4, if_pos hbig]
  · rw [decodeFrame_eq] at hok
    by_cases g1 : stream2.length < 4
    · rw [if_pos g1] at hok
      exact absurd hok (by simp)
    · rw [if_neg g1] at hok
      by_cases g2 : byteArrayToInt (stream2.take 4) > (TCPIP_BUFFER_SIZE : Int)
      · rw [if_pos g2] at hok
        exact absurd hok (by simp)
      · rw [if_neg g2] at hok
        by_cases g3 : (stream2.drop 4).length < (byteArrayToInt (stream2.take 4)).toNat
        · rw [if_pos g3] at hok
          exact absurd hok (by simp)
        · rw [if_neg g3] at hok
          have hp : p = (stream2.drop 4).take (byteArrayToInt (stream2.take 4)).toNat := by
            cases hok
            rfl
          have hlen : (byteArrayToInt (stream2.take 4)).toNat ≤ TCPIP_BUFFER_SIZE := by
            simp only [gt_iff_lt, not_lt] at g2
            have hmax : TCPIP_BUFFER_SIZE = 2000000 := rfl
            omega
          rw [hp]
          simp only [List.length_take]
          omega

/-- Witness for C4: field [0,0,0,1] declares 16777216 > 2000000 and
faults; stream [1,0,0,0,42] decodes to the 1-byte payload [42]. -/
theorem c4_oversize_guard_witness :
    ¬ ([0, 0, 0, 1] : List Nat).length < 4 ∧
    byteArrayToInt [0, 0, 0, 1] > (TCPIP_BUFFER_SIZE : Int) ∧
    decodeFrame [1, 0, 0, 0, 42] = .ok [42] [] ∧
    (decodeFrame [0, 0, 0, 1] = .oversize (byteArrayToInt ([0, 0, 0, 1].take 4)) ∧
     ([42] : List Nat).length ≤ TCPIP_BUFFER_SIZE) :=
  ⟨by decide, by decide, by decide,
   c4_oversize_guard [0, 0, 0, 1] [1, 0, 0, 0, 42] [42] []
     (by decide) (by decide) (by decide)⟩

/-! ## C8: DetectMotion access bounds -/

/-- C8 counterexample to the claim as stated: at width 16 and height 64
the code computes mbx = 1, mby = 4, and the scanned cell (x = 0, j = 3)
reads index 6, outside the spec's claimed array extent
mbx * (mby + 1) = 5. -/
theorem c8_spec_extent_counterexample :
    mbOf 16 = 1 ∧ mbOf 64 = 4 ∧ (0 : Nat) < 1 ∧ (3 : Nat) < 4 ∧
    ¬ detectMotionIndex 1 0 3 < specCellCount 1 4 := by
  decide

/-- C8 (amended): every access DetectMotion performs — cell index
x + (mbx+1)*j for x < mbx, j < mby — lies within (mbx+1)*mby cells (row
stride mbx+1 over mby rows), which is therefore the array extent a
MotionVectors frame must carry; it stays inside the spec's extent
mbx*(mby+1) only when mby ≤ mbx + 1. -/
theorem c8_access_in_stride_bound (mbx mby x j : Nat)
    (hx : x < mbx) (hj : j < mby) :
    detectMotionIndex mbx x j < strideCellCount mbx mby := by
  unfold detectMotionIndex strideCellCount
  have h1 : (mbx + 1) * (j + 1) = (mbx + 1) * j + (mbx + 1) := by ring
  have h2 : (mbx + 1) * (j + 1) ≤ (mbx + 1) * mby :=
    Nat.mul_le_mul_left (mbx + 1) hj
  omega

/-- Witness for C8 at mbx = 1, mby = 4, x = 0, j = 3. -/
theorem c8_access_in_stride_bound_witness :
    (0 : Nat) < 1 ∧ (3 : Nat) < 4 ∧
    detectMotionIndex 1 0 3 < strideCellCount 1 4 :=
  ⟨by decide, by decide, c8_access_in_stride_bound 1 4 0 3 (by decide) (by decide)⟩

/-! ## C10: read_exact termination at end of stream -/

theorem tcpReadLoop_succ_eq (f : Nat) (sched : List Nat)
    (iToRead offset : Int) (data : List Nat) :
    tcpReadLoop (f + 1) sched iToRead offset data
      = if iToRead ≤ 0 then some .retTrue
        else if offset < 0 then some .crash
        else if data.length = 0 then
          tcpReadLoop f sched.tail (iToRead + 1) (offset - 1) data
        else
          let r : Nat := min (min (sched.headD iToRead.toNat) iToRead.toNat) data.length
          tcpReadLoop f sched.tail (iToRead - r) (offset + r) (data.drop r) := rfl

/-- C10: TcpIpReader.read_exact does NOT return false when the stream
ends before the requested 4 bytes arrive: lacking the read<1 guard it
feeds the -1 end-of-stream result into `iToRead -= read; offset += read`
and the next read call, made with offset -1, dies of an uncaught
IndexOutOfBoundsException (`crash`) — for no amount of fuel does the loop
produce false.  The DecoderThread (VideoFragment) variant, which guards
`read < 1` explicitly, returns false on the same input. -/
theorem c10_tcp_read_exact_eof :
    (∀ fuel : Nat, tcpReadLoop fuel [] 4 0 [] ≠ some JavaReadOutcome.retFalse) ∧
    tcpReadLoop 2 [] 4 0 [] = some JavaReadOutcome.crash ∧
    decoderReadLoop 1 [] 4 [] [] = some (false, []) := by
  refine ⟨?_, by decide, by decide⟩
  intro fuel
  match fuel with
  | 0 => decide
  | 1 => decide
  | (f + 2) =>
    have h1 : tcpReadLoop (f + 2) [] 4 0 [] = tcpReadLoop (f + 1) [] 5 (-1) [] := by
      rw [tcpReadLoop_succ_eq]
      norm_num
    have h2 : tcpReadLoop (f + 1) [] 5 (-1) [] = some JavaReadOutcome.crash := by
      rw [tcpReadLoop_succ_eq]
      norm_num
    rw [h1, h2]
    simp

/-! ## C7: motion sidecar reduction -/

theorem foldMax_zero (f : Nat → Nat) (a : Nat) : foldMax f 0 a = a := rfl

theorem foldMax_succ (f : Nat → Nat) (n a : Nat) :
    foldMax f (n + 1) a = max (foldMax f n a) (f n) := by
  unfold foldMax
  rw [List.range_succ, List.foldl_append]
  rfl

theorem foldMax_arg_le (f : Nat → Nat) (n a x : Nat) (hx : x < n) :
    f x ≤ foldMax f n a := by
  induction n with
  | zero => omega
  | succ n ih =>
    rw [foldMax_succ]
    rcases Nat.lt_succ_iff_lt_or_eq.mp hx with h | h
    · exact le_trans (ih h) (le_max_left _ _)
    · subst h
      exact le_max_right _ _

theorem foldMax_eq_init_or_arg (f : Nat → Nat) (n a : Nat) :
    foldMax f n a = a ∨ ∃ x, x < n ∧ foldMax f n a = f x := by
  induction n with
  | zero => exact Or.inl rfl
  | succ n ih =>
    rw [foldMax_succ]
    rcases le_total (foldMax f n a) (f n) with h | h
    · exact Or.inr ⟨n, Nat.lt_succ_self n, max_eq_right h⟩
    · rw [max_eq_left h]
      rcases ih with h1 | ⟨x, hx, he⟩
      · exact Or.inl h1
      · exact Or.inr ⟨x, Nat.lt_succ_of_lt hx, he⟩

theorem foldMax_shift (f : Nat → Nat) (n a : Nat) :
    foldMax f n a = max a (foldMax f n 0) := by
  induction n with
  | zero => simp [foldMax_zero]
  | succ n ih => rw [foldMax_succ, foldMax_succ, ih, max_assoc]

theorem foldl_inner_foldMax (g : Nat → Nat → Nat) (m n a : Nat) :
    (List.range n).foldl (fun acc j => foldMax (g j) m acc) a
      = foldMax (fun j => foldMax (g j) m 0) n a := by
  induction n with
  | zero => rfl
  | succ n ih =>
    rw [List.range_succ, List.foldl_append]
    simp only [List.foldl_cons, List.foldl_nil]
    rw [ih, foldMax_shift (g n) m, foldMax_succ]

/-- DetectMotion is the nested running maximum expressed through foldMax. -/
theorem detectMotion_eq_foldMax (imv : List IMV) (mbx mby : Nat) :
    DetectMotion imv mbx mby
      = foldMax (fun j => foldMax
          (fun x => cellMag (imv.getD (detectMotionIndex mbx x j) ⟨0, 0, 0⟩)) mbx 0)
          mby 0 :=
  foldl_inner_foldMax
    (fun j x => cellMag (imv.getD (detectMotionIndex mbx x j) ⟨0, 0, 0⟩)) mbx mby 0

theorem cbam_sideinfo (st : MotionState) (gAlarm : Int) (mbx mby : Nat)
    (flags : Nat) (data : List Nat)
    (hd : data.length ≠ 0)
    (hcfg : ¬ (st.b1ConfigSent < 2 ∧ flags &&& MMAL_FLAG_CONFIG ≠ 0))
    (hs : flags &&& MMAL_FLAG_CODECSIDEINFO ≠ 0) :
    encoderBufferCallbackAndroidMotion st gAlarm mbx mby flags data
      = .ok st ([MotionInFrame, DetectMotion (bytesToIMV data) mbx mby]
          ++ (if gAlarm ≠ 0 ∧ ((DetectMotion (bytesToIMV data) mbx mby : Nat) : Int) > gAlarm
              then [MotionAlarm] else [])) := by
  unfold encoderBufferCallbackAndroidMotion
  rw [if_neg hd, if_neg hcfg, if_pos hs]

/-- C7: on a MotionVectors (codec-side-info) buffer the android_motion
callback sends the MotionInFrame tag and the one-byte DetectMotion score,
followed by a MotionAlarm tag byte exactly when the alarm threshold is
non-zero and the score strictly exceeds it; the score is the maximum cell
magnitude floor(sqrt(vx^2+vy^2)) over the scanned macroblock grid (it
bounds every scanned cell and is attained by one unless zero). -/
theorem c7_motion_sidecar (st : MotionState) (gAlarm : Int) (mbx mby : Nat)
    (flags : Nat) (data : List Nat)
    (hd : data.length ≠ 0)
    (hcfg : ¬ (st.b1ConfigSent < 2 ∧ flags &&& MMAL_FLAG_CONFIG ≠ 0))
    (hs : flags &&& MMAL_FLAG_CODECSIDEINFO ≠ 0) :
    encoderBufferCallbackAndroidMotion st gAlarm mbx mby flags data
      = .ok st ([MotionInFrame, DetectMotion (bytesToIMV data) mbx mby]
          ++ (if gAlarm ≠ 0 ∧ ((DetectMotion (bytesToIMV data) mbx mby : Nat) : Int) > gAlarm
              then [MotionAlarm] else [])) ∧
    (∀ j, j < mby → ∀ x, x < mbx →
      cellMag ((bytesToIMV data).getD (detectMotionIndex mbx x j) ⟨0, 0, 0⟩)
        ≤ DetectMotion (bytesToIMV data) mbx mby) ∧
    (DetectMotion (bytesToIMV data) mbx mby = 0 ∨
     ∃ j, j < mby ∧ ∃ x, x < mbx ∧
       DetectMotion (bytesToIMV data) mbx mby
         = cellMag ((bytesToIMV data).getD (detectMotionIndex mbx x j) ⟨0, 0, 0⟩)) := by
  refine ⟨cbam_sideinfo st gAlarm mbx mby flags data hd hcfg hs, ?_, ?_⟩
  · intro j hj x hx
    rw [detectMotion_eq_foldMax]
    calc cellMag ((bytesToIMV data).getD (detectMotionIndex mbx x j) ⟨0, 0, 0⟩)
        ≤ foldMax (fun y => cellMag ((bytesToIMV data).getD (detectMotionIndex mbx y j) ⟨0, 0, 0⟩)) mbx 0 :=
          foldMax_arg_le
            (fun y => cellMag ((bytesToIMV data).getD (detectMotionIndex mbx y j) ⟨0, 0, 0⟩))
            mbx 0 x hx
      _ ≤ foldMax (fun i => foldMax
            (fun y => cellMag ((bytesToIMV data).getD (detectMotionIndex mbx y i) ⟨0, 0, 0⟩)) mbx 0)
            mby 0 :=
          foldMax_arg_le
            (fun i => foldMax
              (fun y => cellMag ((bytesToIMV data).getD (detectMotionIndex mbx y i) ⟨0, 0, 0⟩)) mbx 0)
            mby 0 j hj
  · rw [detectMotion_eq_foldMax]
    rcases foldMax_eq_init_or_arg
      (fun i => foldMax
        (fun y => cellMag ((bytesToIMV data).getD (detectMotionIndex mbx y i) ⟨0, 0, 0⟩)) mbx 0)
      mby 0 with h | ⟨j, hj, hje⟩
    · exact Or.inl h
    · rcases foldMax_eq_init_or_arg
        (fun y => cellMag ((bytesToIMV data).getD (detectMotionIndex mbx y j) ⟨0, 0, 0⟩))
        mbx 0 with h2 | ⟨x, hx, hxe⟩
      · exact Or.inl (by rw [hje, h2])
      · exact Or.inr ⟨j, hj, x, hx, by rw [hje, hxe]⟩

/-- Witness for C7: one macroblock with vector (1,1) and sad 0, alarm
threshold 0 — the score is floor(sqrt 2) = 1 and no alarm byte follows. -/
theorem c7_motion_sidecar_witness :
    ([1, 1, 0, 0] : List Nat).length ≠ 0 ∧
    ¬ ((MotionState.mk none 2).b1ConfigSent < 2 ∧
        MMAL_FLAG_CODECSIDEINFO &&& MMAL_FLAG_CONFIG ≠ 0) ∧
    MMAL_FLAG_CODECSIDEINFO &&& MMAL_FLAG_CODECSIDEINFO ≠ 0 ∧
    (encoderBufferCallbackAndroidMotion ⟨none, 2⟩ 0 1 1 MMAL_FLAG_CODECSIDEINFO [1, 1, 0, 0]
      = .ok ⟨none, 2⟩ ([MotionInFrame, DetectMotion (bytesToIMV [1, 1, 0, 0]) 1 1]
          ++ (if (0 : Int) ≠ 0 ∧ ((DetectMotion (bytesToIMV [1, 1, 0, 0]) 1 1 : Nat) : Int) > 0
              then [MotionAlarm] else [])) ∧
     (∀ j, j < 1 → ∀ x, x < 1 →
       cellMag ((bytesToIMV [1, 1, 0, 0]).getD (detectMotionIndex 1 x j) ⟨0, 0, 0⟩)
         ≤ DetectMotion (bytesToIMV [1, 1, 0, 0]) 1 1) ∧
     (DetectMotion (bytesToIMV [1, 1, 0, 0]) 1 1 = 0 ∨
      ∃ j, j < 1 ∧ ∃ x, x < 1 ∧
        DetectMotion (bytesToIMV [1, 1, 0, 0]) 1 1
          = cellMag ((bytesToIMV [1, 1, 0, 0]).getD (detectMotionIndex 1 x j) ⟨0, 0, 0⟩))) :=
  ⟨by decide, by decide, by decide,
   c7_motion_sidecar ⟨none, 2⟩ 0 1 1 MMAL_FLAG_CODECSIDEINFO [1, 1, 0, 0]
     (by decide) (by decide) (by decide)⟩

/-! ## C9: control command dispatch -/

theorem strncmpEq_append_self (p : List Char) :
    ∀ s : List Char, strncmpEq p (p ++ s) = true := by
  induction p with
  | nil => intro s; rfl
  | cons c p ih =>
    intro s
    simp only [List.cons_append, strncmpEq, if_pos rfl]
    exact ih s

theorem isDigitC_not_ws (c : Char) (h : isDigitC c = true) : isWS c = false := by
  simp only [isDigitC, Bool.and_eq_true, decide_eq_true_eq] at h
  simp only [isWS, Bool.or_eq_false_iff, decide_eq_false_iff_not]
  omega

theorem takeWhile_digits_nl (ds : List Char)
    (hdig : ∀ c ∈ ds, isDigitC c = true) :
    (ds ++ [ '\n' ]).takeWhile isDigitC = ds := by
  induction ds with
  | nil => decide
  | cons c ds ih =>
    have hc : isDigitC c = true := hdig c (by simp)
    simp only [List.cons_append, List.takeWhile_cons, hc, if_true]
    rw [ih (fun x hx => hdig x (by simp [hx]))]

theorem scanfInt_digits_nl (ds : List Char) (hne : ds ≠ [])
    (hdig : ∀ c ∈ ds, isDigitC c = true) :
    scanfInt (ds ++ [ '\n' ]) = some ((digitsVal ds : Nat) : Int) := by
  rcases ds with _ | ⟨d, ds⟩
  · exact absurd rfl hne
  · have hd : isDigitC d = true := hdig d (by simp)
    have hdw : (d :: ds ++ [ '\n' ]).dropWhile isWS = d :: (ds ++ [ '\n' ]) := by
      simp only [List.cons_append, List.dropWhile_cons, isDigitC_not_ws d hd,
        Bool.false_eq_true, if_false]
    have hminus : ¬ ((d :: (ds ++ [ '\n' ])).headD (Char.ofNat 0) = '-') := by
      simp only [List.headD_cons]
      intro he
      subst he
      exact absurd hd (by decide)
    have hplus : ¬ ((d :: (ds ++ [ '\n' ])).headD (Char.ofNat 0) = '+') := by
      simp only [List.headD_cons]
      intro he
      subst he
      exact absurd hd (by decide)
    have htw : (d :: (ds ++ [ '\n' ])).takeWhile isDigitC = d :: ds := by
      have := takeWhile_digits_nl (d :: ds) hdig
      simpa using this
    unfold scanfInt
    simp only [hdw, List.length_cons, Nat.succ_ne_zero, if_false, hminus, hplus,
      if_false, htw]
    rw [if_neg (by simp)]

theorem processLine_iso (st : CmdState) (ds : List Char) (hne : ds ≠ [])
    (hdig : ∀ c ∈ ds, isDigitC c = true) :
    processLine st (isoKey ++ (ds ++ [ '\n' ]))
      = ([.setISO ((digitsVal ds : Nat) : Int)], st) := by
  unfold processLine
  rw [if_pos (strncmpEq_append_self isoKey (ds ++ [ '\n' ]))]
  have hdrop : (isoKey ++ (ds ++ [ '\n' ])).drop 4 = ds ++ [ '\n' ] := by
    have h4 : isoKey.length = 4 := rfl
    rw [← h4, List.drop_left]
  rw [hdrop, scanfInt_digits_nl ds hne hdig]

theorem processLine_nomatch (st : CmdState) (line : List Char)
    (h1 : strncmpEq isoKey line = false)
    (h2 : strncmpEq ssKey line = false)
    (h3 : strncmpEq statKey line = false)
    (h4 : strncmpEq motionKey line = false)
    (h5 : strncmpEq moveKey line = false)
    (h6 : strncmpEq motAlarmKey line = false) :
    processLine st line = ([], st) := by
  unfold processLine
  simp only [h1, h2, h3, h4, h5, h6, Bool.false_eq_true, if_false]

/-- C9: a control line of the form iso=<digits>\n produces exactly one
camera call — set_ISO with that integer — and leaves the globals
untouched; a line matching none of the six known key prefixes produces no
camera call at all; and the getline loop goes on to the remaining lines
after each line, threading the updated globals. -/
theorem c9_control_commands (st st2 st3 : CmdState) (ds line l : List Char)
    (rest : List (List Char))
    (hne : ds ≠ []) (hdig : ∀ c ∈ ds, isDigitC c = true)
    (h1 : strncmpEq isoKey line = false)
    (h2 : strncmpEq ssKey line = false)
    (h3 : strncmpEq statKey line = false)
    (h4 : strncmpEq motionKey line = false)
    (h5 : strncmpEq moveKey line = false)
    (h6 : strncmpEq motAlarmKey line = false) :
    processLine st (isoKey ++ (ds ++ [ '\n' ]))
      = ([.setISO ((digitsVal ds : Nat) : Int)], st) ∧
    processLine st2 line = ([], st2) ∧
    receiveCommands st3 (l :: rest)
      = (processLine st3 l).1 ++ receiveCommands (processLine st3 l).2 rest :=
  ⟨processLine_iso st ds hne hdig,
   processLine_nomatch st2 line h1 h2 h3 h4 h5 h6, rfl⟩

/-- Witness for C9: the line iso=800\n yields exactly the call
set_ISO 800; the line qwer\n yields no call; the loop continues past a
first line. -/
theorem c9_control_commands_witness :
    ([ '8', '0', '0' ] : List Char) ≠ [] ∧
    (∀ c ∈ ([ '8', '0', '0' ] : List Char), isDigitC c = true) ∧
    strncmpEq isoKey [ 'q', 'w', 'e', 'r', '\n' ] = false ∧
    (processLine ⟨0, 0⟩ (isoKey ++ ([ '8', '0', '0' ] ++ [ '\n' ]))
       = ([CamCall.setISO 800], ⟨0, 0⟩) ∧
     processLine ⟨0, 0⟩ [ 'q', 'w', 'e', 'r', '\n' ] = ([], ⟨0, 0⟩) ∧
     receiveCommands ⟨0, 0⟩ ([ 'q', 'w', 'e', 'r', '\n' ] :: [])
       = (processLine ⟨0, 0⟩ [ 'q', 'w', 'e', 'r', '\n' ]).1
         ++ receiveCommands (processLine ⟨0, 0⟩ [ 'q', 'w', 'e', 'r', '\n' ]).2 []) :=
  ⟨by decide, by decide, by decide,
   c9_control_commands ⟨0, 0⟩ ⟨0, 0⟩ ⟨0, 0⟩ [ '8', '0', '0' ]
     [ 'q', 'w', 'e', 'r', '\n' ] [ 'q', 'w', 'e', 'r', '\n' ] []
     (by decide) (by decide) (by decide) (by decide) (by decide) (by decide)
     (by decide) (by decide)⟩

end RaspiCamera
